import Mathlib

/-!
Verification of the go-tinylib `Result[T, E]` combinator library
(`pkg/tiny/result.go`, `pkg/tiny/result_context.go`).

The Go code is shallowly embedded: `Result[T, E]` becomes a Lean structure
with the same three fields; the Go `error` interface type becomes
`Err := Option ErrVal` (with `none` playing the role of the `nil`
interface value); Go panics (failed type assertions, `UnwrapOrPanic`)
become `Option`/`Except` results; the goroutine bodies of the async
combinators become trace functions parameterised by an oracle that says
which branch of the `select` fires first.
-/

namespace Tiny

/-- `State` from result.go: the discriminant of a `Result`. -/
inductive State where
  | Success
  | Failure
deriving DecidableEq, Repr

/-- The Go zero value of a type (what an uninitialised struct field holds). -/
class GoZero (α : Type) where
  zero : α

instance : GoZero Nat := ⟨0⟩

instance : GoZero Int := ⟨0⟩

instance : GoZero String := ⟨""⟩

instance : GoZero (List α) := ⟨[]⟩

/--
Values of the Go `error` interface as used by this repository:
`errors.New`-style strings (also what `fmt.Errorf` without `%w` returns),
the two sentinel errors of the `context` package, the wrapping error
produced by `fmt.Errorf("%s: %w", msg, cause)`, and the boxed form of
`MyCode`, a caller-defined concrete (non-interface) error type used to
instantiate the type parameter `E`.
-/
inductive ErrVal where
  | errorString (s : String)
  | canceled
  | deadlineExceeded
  | wrapf (msg : String) (cause : ErrVal)
  | myCode (code : Nat)
deriving DecidableEq, Repr

/-- The `Error()` method / `%v` rendering of each error value. -/
def ErrVal.text : ErrVal → String
  | .errorString s => s
  | .canceled => "context canceled"
  | .deadlineExceeded => "context deadline exceeded"
  | .wrapf msg c => msg ++ ": " ++ c.text
  | .myCode n => "error code " ++ toString n

/-- The Go `error` interface type: `none` is the nil interface value. -/
abbrev Err := Option ErrVal

/-- `errors.Unwrap`: only the `fmt.Errorf`-with-`%w` error exposes a cause. -/
def errorsUnwrap : ErrVal → Err
  | .wrapf _ c => some c
  | _ => none

/-- `errors.Is(e, target)` for non-nil operands: walk the unwrap chain. -/
def errorsIs (e target : ErrVal) : Bool :=
  if e = target then true
  else
    match e with
    | .wrapf _ c => errorsIs c target
    | _ => false

/--
A Go type usable as the error parameter `E` (constraint `E error`),
together with the pieces of Go semantics the combinators rely on:
its zero value, its `%v` rendering, the compound nil test
`any(err) != nil && !errors.Is(err, nil)` used by `Map`, the conversion
to the `error` interface (used by `fmt.Errorf`'s `%w`), and the dynamic
type assertion `any(e).(E)` from an interface value (where `none` models
the run-time panic of a failed assertion).
-/
class GoErrorType (E : Type) extends GoZero E where
  fmtv : E → String
  nonNilCheck : E → Bool
  toIface : E → Err
  assertFromAny : Err → Option E

/--
The instantiation `E = error` (the only one the repository itself uses).
With an interface-typed `err`, `any(err) != nil` holds exactly when the
interface value is non-nil, and `errors.Is(err, nil)` reduces to
`err == nil`, so `nonNilCheck` is `isSome`. A type assertion `.(error)`
on a non-nil value always succeeds; on the nil interface it panics.
-/
instance instGoErrorTypeErr : GoErrorType Err where
  zero := none
  fmtv e :=
    match e with
    | none => "<nil>"
    | some v => v.text
  nonNilCheck e := e.isSome
  toIface e := e
  assertFromAny e :=
    match e with
    | none => none
    | some v => some (some v)

/--
A caller-defined concrete (non-interface) Go error type,
`type MyCode struct{ code int }` with an `Error() string` method, used to
instantiate the type parameter `E` at something other than the `error`
interface. Its Go zero value is the struct with all fields zeroed.
-/
structure MyCode where
  code : Nat
deriving DecidableEq, Repr

/--
Go semantics for a concrete struct error type: converting a non-interface
value to `any` always yields a non-nil interface value, so
`any(err) != nil` is `true` for every `MyCode`, including its zero value;
`errors.Is(err, nil)` compares that non-nil interface against nil and is
`false`; hence `nonNilCheck` is constantly `true`. The dynamic assertion
`any(e).(MyCode)` succeeds only when the dynamic type is exactly `MyCode`.
-/
instance instGoErrorTypeMyCode : GoErrorType MyCode where
  zero := ⟨0⟩
  fmtv c := "error code " ++ toString c.code
  nonNilCheck _ := true
  toIface c := some (.myCode c.code)
  assertFromAny e :=
    match e with
    | some (.myCode n) => some ⟨n⟩
    | _ => none

/-- `Result[T, E]` from result.go: state plus both payload fields. -/
structure Result (T E : Type) where
  state : State
  value : T
  fault : E
deriving DecidableEq, Repr

/-- `Ok`: Success state, given value, fault left at E's zero value. -/
def Ok [GoZero T] [GoZero E] (value : T) : Result T E :=
  { state := .Success, value := value, fault := GoZero.zero }

/-- `Fail`: Failure state, given error, value left at T's zero value. -/
def Fail [GoZero T] [GoZero E] (err : E) : Result T E :=
  { state := .Failure, value := GoZero.zero, fault := err }

/-- `Then`: return `r` itself on Failure, otherwise `fn(r.value)`. -/
def Result.Then (r : Result T E) (fn : T → Result T E) : Result T E :=
  if r.state = .Failure then r else fn r.value

/--
`Map`: on Failure, `Fail(r.fault)` at the new value type; on Success,
run `fn` and test its error with `any(err) != nil && !errors.Is(err, nil)`.
-/
def Map [GoZero T] [GoZero U] [GoErrorType E]
    (r : Result T E) (fn : T → U × E) : Result U E :=
  if r.state = .Failure then Fail r.fault
  else
    let p := fn r.value
    if GoErrorType.nonNilCheck p.2 then Fail p.2 else Ok p.1

/-- `OrElse`: held value on Success, the supplied default on Failure. -/
def Result.OrElse (r : Result T E) (defaultVal : T) : T :=
  if r.state = .Success then r.value else defaultVal

/--
`fmt.Errorf("%s: %w", msg, cause)` with `cause` already converted to the
`error` interface: wrapping with an unwrappable cause when the operand is
a non-nil error, and (as `fmt` does for a `%w` operand that is not an
error) a plain error string with a `%!w` complaint when it is nil.
-/
def goErrorfWrap (msg : String) (cause : Err) : Err :=
  match cause with
  | some v => some (.wrapf msg v)
  | none => some (.errorString (msg ++ ": %!w(<nil>)"))

/-- `Wrap`: on Failure, wrap the fault with context; on Success, pass the
value through into the `error`-typed Result. -/
def Result.Wrap [GoZero T] [GoErrorType E]
    (r : Result T E) (msg : String) : Result T Err :=
  if r.state = .Failure then Fail (goErrorfWrap msg (GoErrorType.toIface r.fault))
  else Ok r.value

/-- `Unwrap`: the fault on Failure, E's zero value on Success. -/
def Result.Unwrap [GoZero E] (r : Result T E) : E :=
  if r.state = .Failure then r.fault else GoZero.zero

/-- The loop of `All`, with `values` as the accumulator slice. -/
def allLoop [GoZero T] [GoZero E]
    (values : List T) : List (Result T E) → Result (List T) E
  | [] => Ok values
  | r :: rest =>
    if r.state = .Failure then Fail r.fault
    else allLoop (values ++ [r.value]) rest

/-- `All`: first Failure wins, otherwise the ordered list of values. -/
def All [GoZero T] [GoZero E] (results : List (Result T E)) : Result (List T) E :=
  allLoop [] results

/-- `UnwrapOrPanic`: the value on Success; on Failure a panic, modelled as
`Except.error` carrying the panic message. -/
def Result.UnwrapOrPanic [GoErrorType E] (r : Result T E) : Except String T :=
  if r.state = .Failure then
    .error ("called UnwrapOrPanic on a Failure: " ++ GoErrorType.fmtv r.fault)
  else .ok r.value

/-- `MapErr`: apply `fn` to the fault on Failure; pass the value through
on Success. -/
def MapErr [GoZero T] [GoZero E] [GoZero F]
    (r : Result T E) (fn : E → F) : Result T F :=
  if r.state = .Failure then Fail (fn r.fault) else Ok r.value

/--
A cancellation token (`context.Context`), modelled by what its `Err()`
method returns when the combinator observes it at entry: `none` while not
yet signaled, `some cause` once signaled.
-/
structure Ctx where
  err : Err

/--
`ThenWithContext` from result_context.go. A `none` overall result models
the panic of the unchecked type assertion `any(err).(E)` on the
cancellation cause; `some` is normal return.
-/
def ThenWithContext [GoZero T] [GoErrorType E]
    (ctx : Ctx) (r : Result T E) (fn : T → Result T E) : Option (Result T E) :=
  if r.state = .Failure then some r
  else
    match ctx.err with
    | none => some (fn r.value)
    | some c =>
      match (GoErrorType.assertFromAny (some c) : Option E) with
      | none => none
      | some e => some (Fail e)

/--
`MapWithContext` from result_context.go: Failure propagates as a fresh
`Fail`, then the token is consulted, then `fn` runs with the same
nil-test join point as `Map`. `none` models the assertion panic.
-/
def MapWithContext [GoZero T] [GoZero U] [GoErrorType E]
    (ctx : Ctx) (r : Result T E) (fn : T → U × E) : Option (Result U E) :=
  if r.state = .Failure then some (Fail r.fault)
  else
    match ctx.err with
    | some c =>
      match (GoErrorType.assertFromAny (some c) : Option E) with
      | none => none
      | some e => some (Fail e)
    | none =>
      let p := fn r.value
      some (if GoErrorType.nonNilCheck p.2 then Fail p.2 else Ok p.1)

/--
`time.Duration`, abstracted to its `%v` rendering (no claim depends on
duration arithmetic or on the exact rendering).
-/
structure Duration where
  repr : String

/-- Which branch of a two-way `select` between the continuation's result
channel and a timer fires first. -/
inductive Winner where
  | compute
  | signal

/--
Which branch of a `select` between the continuation's result channel and
a context's `Done` channel fires first; on the `Done` side, `cause` is
what the context's `Err()` returns at that moment (non-nil, since `Done`
is closed).
-/
inductive CtxWinner where
  | compute
  | ctxDone (cause : ErrVal)

/--
The goroutine body of `AsyncThen`: the ordered list of sends on the
returned channel, paired with whether the deferred `close` runs. The body
is `defer close(ch); ch <- r.Then(fn)`.
-/
def AsyncThenTrace (r : Result T E) (fn : T → Result T E) :
    List (Result T E) × Bool :=
  ([r.Then fn], true)

/--
The goroutine body of `AsyncThenWithTimeout`, parameterised by which
`select` branch fires first. On the timer branch the code builds
`fmt.Errorf("operation timed out after %v", timeout)` and converts it
with the unchecked assertion `any(err).(E)`; if that assertion panics the
goroutine unwinds past the send (the deferred `close` still runs).
-/
def AsyncThenWithTimeoutTrace [GoZero T] [GoErrorType E]
    (r : Result T E) (fn : T → Result T E) (timeout : Duration) (w : Winner) :
    List (Result T E) × Bool :=
  match w with
  | .compute => ([r.Then fn], true)
  | .signal =>
    match (GoErrorType.assertFromAny
        (some (.errorString ("operation timed out after " ++ timeout.repr))) :
        Option E) with
    | some e => ([Fail e], true)
    | none => ([], true)

/--
The goroutine body of `AsyncThenWithContext`: an entry check of
`ctx.Err()` (sending a converted Failure and returning if already
signaled), then a `select` racing the continuation against `ctx.Done()`.
Failed assertions unwind past the send as above.
-/
def AsyncThenWithContextTrace [GoZero T] [GoErrorType E]
    (ctx : Ctx) (r : Result T E) (fn : T → Result T E) (w : CtxWinner) :
    List (Result T E) × Bool :=
  match ctx.err with
  | some c =>
    match (GoErrorType.assertFromAny (some c) : Option E) with
    | some e => ([Fail e], true)
    | none => ([], true)
  | none =>
    match w with
    | .compute => ([r.Then fn], true)
    | .ctxDone c =>
      match (GoErrorType.assertFromAny (some c) : Option E) with
      | some e => ([Fail e], true)
      | none => ([], true)

/--
The goroutine body of `AsyncThenWithContextAndTimeout`: entry check of
`ctx.Err()`, then a `select` against the derived
`context.WithTimeout(ctx, timeout)` context's `Done`. On that branch,
`cause` is the derived context's `Err()`; when `errors.Is(cause,
context.DeadlineExceeded)` the code substitutes
`fmt.Errorf("operation timed out after %v", timeout)` before converting.
-/
def AsyncThenWithContextAndTimeoutTrace [GoZero T] [GoErrorType E]
    (ctx : Ctx) (r : Result T E) (fn : T → Result T E) (timeout : Duration)
    (w : CtxWinner) : List (Result T E) × Bool :=
  match ctx.err with
  | some c =>
    match (GoErrorType.assertFromAny (some c) : Option E) with
    | some e => ([Fail e], true)
    | none => ([], true)
  | none =>
    match w with
    | .compute => ([r.Then fn], true)
    | .ctxDone cause =>
      let e :=
        if errorsIs cause .deadlineExceeded then
          ErrVal.errorString ("operation timed out after " ++ timeout.repr)
        else cause
      match (GoErrorType.assertFromAny (some e) : Option E) with
      | some e2 => ([Fail e2], true)
      | none => ([], true)

/--
The representation invariant of a `Result`: the field not selected by the
discriminant holds its type's zero value. The struct fields are
unexported, so every `Result` reachable through the package API satisfies
this.
-/
def Result.WF [GoZero T] [GoZero E] (r : Result T E) : Prop :=
  (r.state = .Success → r.fault = GoZero.zero) ∧
  (r.state = .Failure → r.value = GoZero.zero)

instance [GoZero T] [GoZero E] [DecidableEq T] [DecidableEq E]
    (r : Result T E) : Decidable r.WF := by
  unfold Result.WF
  infer_instance

theorem allLoop_all_success [GoZero T] [GoZero E]
    (rs : List (Result T E)) :
    ∀ acc, (∀ r ∈ rs, r.state = .Success) →
      allLoop acc rs = Ok (acc ++ rs.map fun r => r.value) := by
  induction rs with
  | nil => intro acc _; simp [allLoop]
  | cons r rest ih =>
    intro acc h
    have hr : r.state = .Success := h r (by simp)
    simp only [allLoop]
    rw [if_neg (by simp [hr])]
    rw [ih (acc ++ [r.value]) (fun x hx => h x (by simp [hx]))]
    simp

theorem allLoop_first_failure [GoZero T] [GoZero E]
    (pre : List (Result T E)) :
    ∀ acc (f : Result T E) (post : List (Result T E)),
      (∀ r ∈ pre, r.state = .Success) → f.state = .Failure →
      allLoop acc (pre ++ f :: post) = Fail f.fault := by
  induction pre with
  | nil =>
    intro acc f post _ hf
    simp only [List.nil_append, allLoop]
    rw [if_pos hf]
  | cons r rest ih =>
    intro acc f post h hf
    have hr : r.state = .Success := h r (by simp)
    simp only [List.cons_append, allLoop]
    rw [if_neg (by simp [hr])]
    exact ih _ f post (fun x hx => h x (by simp [hx])) hf

/--
Claim C4: `Then` is the identity on a Failure input, returning the
original Result (fault unchanged, independent of the continuation), and
on a Success input returns `fn` applied to the held value directly, with
no extra wrapping (monadic bind).
-/
theorem C4_then_bind (r : Result T E) (fn : T → Result T E) :
    (r.state = .Failure → r.Then fn = r) ∧
    (r.state = .Success → r.Then fn = fn r.value) := by
  constructor
  · intro h
    simp [Result.Then, h]
  · intro h
    simp [Result.Then, h]

theorem C4_then_bind_witness :
    (Fail (some (.errorString "boom")) : Result Nat Err).Then
        (fun v => Ok (v + 1)) = Fail (some (.errorString "boom")) ∧
    (Ok 5 : Result Nat Err).Then (fun v => Ok (v + 1)) = Ok 6 := by
  constructor
  · exact (C4_then_bind _ _).1 rfl
  · exact (C4_then_bind (Ok 5 : Result Nat Err) (fun v => Ok (v + 1))).2 rfl

/--
Claim C5: `All` scans left to right; with all-Success input (including
the empty list) it returns Success holding the values in input order,
and at the first Failure it returns that element's fault, the elements
after it (`post`, universally quantified) not affecting the output.
-/
theorem C5_all_scan [GoZero T] [GoZero E]
    (rs pre post : List (Result T E)) (f : Result T E) :
    ((∀ r ∈ rs, r.state = .Success) →
      All rs = Ok (rs.map fun r => r.value)) ∧
    ((∀ r ∈ pre, r.state = .Success) → f.state = .Failure →
      All (pre ++ f :: post) = Fail f.fault) := by
  constructor
  · intro h
    simpa [All] using allLoop_all_success rs [] h
  · intro h hf
    simpa [All] using allLoop_first_failure pre [] f post h hf

theorem C5_all_scan_witness :
    All [Ok 1, Ok 2, Ok 3] = (Ok [1, 2, 3] : Result (List Nat) Err) ∧
    All [Ok 1, Fail (some (.errorString "boom")), Ok 3] =
      (Fail (some (.errorString "boom")) : Result (List Nat) Err) := by
  constructor
  · have h := (C5_all_scan ([Ok 1, Ok 2, Ok 3] : List (Result Nat Err))
      [] [] (Ok 0)).1 (by decide)
    simpa using h
  · exact (C5_all_scan ([] : List (Result Nat Err)) [Ok 1] [Ok 3]
      (Fail (some (.errorString "boom")))).2 (by decide) rfl

theorem WF_Ok [GoZero T] [GoZero E] (v : T) : (Ok v : Result T E).WF :=
  ⟨fun _ => rfl, fun h => nomatch h⟩

theorem WF_Fail [GoZero T] [GoZero E] (e : E) : (Fail e : Result T E).WF :=
  ⟨(fun h => nomatch h), fun _ => rfl⟩

theorem WF_allLoop [GoZero T] [GoZero E] (rs : List (Result T E)) :
    ∀ acc, (allLoop acc rs).WF := by
  induction rs with
  | nil => intro acc; exact WF_Ok acc
  | cons r rest ih =>
    intro acc
    by_cases h : r.state = .Failure
    · simpa [allLoop, h] using WF_Fail (T := List T) r.fault
    · simpa [allLoop, h] using ih (acc ++ [r.value])

/--
Claim C8: the constructors establish, and the combinators preserve, the
representation invariant: a Success holds `E`'s zero value in its fault
field and a Failure holds `T`'s zero value in its value field (assuming
any caller-supplied continuation returns invariant-satisfying Results,
needed only for `Then`-like delegation). Stated for `Ok`, `Fail`, `Then`,
`Map`, `MapErr`, `Wrap`, `All`, `ThenWithContext` and `MapWithContext`;
the embedding is purely functional, matching Go's by-value `Result`
parameters, so no operation can mutate an existing Result.
-/
theorem C8_invariant [GoZero T] [GoZero U] [GoZero F] [GoErrorType E]
    (v : T) (e : E) (r : Result T E) (fn : T → Result T E)
    (fm : T → U × E) (fe : E → F) (rs : List (Result T E))
    (msg : String) (ctx : Ctx) :
    (Ok v : Result T E).WF ∧
    (Fail e : Result T E).WF ∧
    (r.WF → (∀ t, (fn t).WF) → (r.Then fn).WF) ∧
    (Map r fm).WF ∧
    (MapErr r fe).WF ∧
    (r.Wrap msg).WF ∧
    (All rs).WF ∧
    (r.WF → (∀ t, (fn t).WF) →
      ∀ r2, ThenWithContext ctx r fn = some r2 → r2.WF) ∧
    (∀ r2, MapWithContext ctx r fm = some r2 → r2.WF) := by
  refine ⟨WF_Ok v, WF_Fail e, fun hr hfn => ?_, ?_, ?_, ?_, WF_allLoop rs [],
    fun hr hfn r2 h2 => ?_, fun r2 h2 => ?_⟩
  · by_cases h : r.state = .Failure
    · simpa [Result.Then, h] using hr
    · simpa [Result.Then, h] using hfn r.value
  · by_cases h : r.state = .Failure
    · simpa [Map, h] using WF_Fail (T := U) r.fault
    · by_cases hc : GoErrorType.nonNilCheck (fm r.value).2
      · simpa [Map, h, hc] using WF_Fail (T := U) (fm r.value).2
      · simpa [Map, h, hc] using WF_Ok (E := E) (fm r.value).1
  · by_cases h : r.state = .Failure
    · simpa [MapErr, h] using WF_Fail (T := T) (fe r.fault)
    · simpa [MapErr, h] using WF_Ok (E := F) r.value
  · by_cases h : r.state = .Failure
    · simpa [Result.Wrap, h] using
        WF_Fail (T := T) (goErrorfWrap msg (GoErrorType.toIface r.fault))
    · simpa [Result.Wrap, h] using WF_Ok (E := Err) r.value
  · rw [ThenWithContext] at h2
    split at h2
    · exact (Option.some.inj h2) ▸ hr
    · split at h2
      · exact (Option.some.inj h2) ▸ hfn r.value
      · split at h2
        · exact nomatch h2
        · exact (Option.some.inj h2) ▸ WF_Fail _
  · rw [MapWithContext] at h2
    split at h2
    · exact (Option.some.inj h2) ▸ WF_Fail (T := U) r.fault
    · split at h2
      · split at h2
        · exact nomatch h2
        · exact (Option.some.inj h2) ▸ WF_Fail (T := U) _
      · rw [Option.some.injEq] at h2
        subst h2
        split
        · exact WF_Fail (T := U) _
        · exact WF_Ok (E := E) _

theorem C8_invariant_witness :
    (Ok 1 : Result Nat Err).WF ∧
    (Fail (some .canceled) : Result Nat Err).WF ∧
    ((Ok 2 : Result Nat Err).Then Ok).WF ∧
    (Map (Ok 2 : Result Nat Err) (fun t => (t + 1, (none : Err)))).WF ∧
    (MapErr (Ok 2 : Result Nat Err) (fun e2 => e2)).WF ∧
    ((Ok 2 : Result Nat Err).Wrap "m").WF ∧
    (All ([Ok 1, Fail (some .canceled)] : List (Result Nat Err))).WF ∧
    (Fail (some .canceled) : Result Nat Err).WF ∧
    (Fail (some .canceled) : Result Nat Err).WF := by
  have H := C8_invariant (U := Nat) (F := Err) 1 (some .canceled)
    (Ok 2 : Result Nat Err) Ok (fun t => (t + 1, (none : Err)))
    (fun e2 => e2) [Ok 1, Fail (some .canceled)] "m" ⟨some .canceled⟩
  exact ⟨H.1, H.2.1,
    H.2.2.1 (by decide) (fun t => ⟨fun _ => rfl, fun h => nomatch h⟩),
    H.2.2.2.1, H.2.2.2.2.1, H.2.2.2.2.2.1, H.2.2.2.2.2.2.1,
    H.2.2.2.2.2.2.2.1 (by decide)
      (fun t => ⟨fun _ => rfl, fun h => nomatch h⟩)
      (Fail (some .canceled)) rfl,
    H.2.2.2.2.2.2.2.2 (Fail (some .canceled)) rfl⟩

/--
Claim C9: for every input, token state and resolution of the race
between the continuation and the cancellation/timeout signal (the
`select` arbitration, modelled as an oracle), the goroutine body of each
async combinator performs exactly one send on the returned channel and
then closes it: never zero sends and never two. Stated at `E = error`,
the instantiation under which the synthesized-failure conversion cannot
abort.
-/
theorem C9_async_single_delivery [GoZero T]
    (r : Result T Err) (fn : T → Result T Err) (ctx : Ctx) (d : Duration)
    (w : Winner) (cw : CtxWinner) :
    ((AsyncThenTrace r fn).1.length = 1 ∧ (AsyncThenTrace r fn).2 = true) ∧
    ((AsyncThenWithTimeoutTrace r fn d w).1.length = 1 ∧
      (AsyncThenWithTimeoutTrace r fn d w).2 = true) ∧
    ((AsyncThenWithContextTrace ctx r fn cw).1.length = 1 ∧
      (AsyncThenWithContextTrace ctx r fn cw).2 = true) ∧
    ((AsyncThenWithContextAndTimeoutTrace ctx r fn d cw).1.length = 1 ∧
      (AsyncThenWithContextAndTimeoutTrace ctx r fn d cw).2 = true) := by
  refine ⟨⟨rfl, rfl⟩, ?_, ?_, ?_⟩
  · cases w <;> exact ⟨rfl, rfl⟩
  · rcases ctx with ⟨_ | c⟩
    · cases cw <;> exact ⟨rfl, rfl⟩
    · exact ⟨rfl, rfl⟩
  · rcases ctx with ⟨_ | c⟩
    · cases cw <;> exact ⟨rfl, rfl⟩
    · exact ⟨rfl, rfl⟩

/--
Claim C10: chaining with the success constructor is an identity,
`Then(r, Ok) = r`, for every Result satisfying the representation
invariant (which all API-reachable Results do).
-/
theorem C10_then_right_identity [GoZero T] [GoZero E]
    (r : Result T E) (h : r.WF) : r.Then Ok = r := by
  rcases r with ⟨st, v, f⟩
  cases st
  · have hf : f = GoZero.zero := h.1 rfl
    simp [Result.Then, Ok, hf]
  · simp [Result.Then]

theorem nonNilCheck_err (e : Err) :
    (GoErrorType.nonNilCheck e : Bool) = e.isSome := rfl

theorem assertFromAny_err (e : Err) :
    (GoErrorType.assertFromAny e : Option Err) = e.map some := by
  cases e <;> rfl

theorem toIface_err (e : Err) : (GoErrorType.toIface e : Err) = e := rfl

/--
Claim C1, counterexample: with the error parameter instantiated at the
concrete (non-interface) type `MyCode`, a continuation that reports the
zero "no error" value of `MyCode` still makes `Map` return a Failure,
because `any(err) != nil` holds for every boxed non-interface value. The
claim predicts `Success` holding the transformed value here.
-/
theorem C1_map_zero_error_counterexample :
    Map (Ok 5 : Result Nat MyCode) (fun _ => (7, (⟨0⟩ : MyCode))) =
      Fail (⟨0⟩ : MyCode) ∧
    (⟨0⟩ : MyCode) = (GoZero.zero : MyCode) ∧
    Map (Ok 5 : Result Nat MyCode) (fun _ => (7, (⟨0⟩ : MyCode))) ≠
      (Ok 7 : Result Nat MyCode) := by
  refine ⟨rfl, rfl, ?_⟩
  decide

/--
Claim C1 (amended): at the generic error interface type `E = error`,
`Map` propagates a Failure without invoking the continuation, and on a
Success input the output is Failure with the continuation's reported
error exactly when that error is non-zero (non-nil), otherwise Success
holding the transformed value.
-/
theorem C1_map_amended [GoZero T] [GoZero U]
    (r : Result T Err) (fn : T → U × Err) :
    (r.state = .Failure → Map r fn = (Fail r.fault : Result U Err)) ∧
    (r.state = .Success →
      ((fn r.value).2 ≠ (GoZero.zero : Err) →
        Map r fn = Fail (fn r.value).2) ∧
      ((fn r.value).2 = (GoZero.zero : Err) →
        Map r fn = Ok (fn r.value).1)) := by
  refine ⟨fun h => by simp [Map, h], fun h => ⟨fun hne => ?_, fun hz => ?_⟩⟩
  · have hck : GoErrorType.nonNilCheck (fn r.value).2 = true := by
      rw [nonNilCheck_err]
      exact Option.isSome_iff_ne_none.mpr hne
    simp [Map, h, hck]
  · have hck : GoErrorType.nonNilCheck (fn r.value).2 = false := by
      rw [nonNilCheck_err, hz]
      rfl
    simp [Map, h, hck]

theorem C1_map_amended_witness :
    Map (Fail (some (.errorString "f")) : Result Nat Err)
        (fun v => (v + 1, (none : Err))) =
      (Fail (some (.errorString "f")) : Result Nat Err) ∧
    Map (Ok 4 : Result Nat Err) (fun v => (v + 1, (none : Err))) = Ok 5 ∧
    Map (Ok 4 : Result Nat Err)
        (fun _ => (0, (some (.errorString "e") : Err))) =
      Fail (some (.errorString "e")) := by
  refine ⟨?_, ?_, ?_⟩
  · exact (C1_map_amended (Fail (some (.errorString "f")) : Result Nat Err)
      (fun v => (v + 1, (none : Err)))).1 rfl
  · exact ((C1_map_amended (Ok 4 : Result Nat Err)
      (fun v => (v + 1, (none : Err)))).2 rfl).2 rfl
  · exact ((C1_map_amended (Ok 4 : Result Nat Err)
      (fun _ => (0, (some (.errorString "e") : Err)))).2 rfl).1 (by decide)

/--
Claim C2: at `E = error`, a Failure input makes `ThenWithContext` return
the Result unchanged independently of token and continuation; a Success
input with a signaled token yields Failure carrying the signal's cause
without invoking the continuation; a Success input with an unsignaled
token invokes the continuation and returns its Result. `MapWithContext`
has the same structure (Failure propagates its fault untouched,
independently of token and continuation; the token is checked only on
the Success path before `fn` runs, after which it agrees with `Map`).
-/
theorem C2_context_gate [GoZero T] [GoZero U]
    (ctx : Ctx) (r : Result T Err) (fn : T → Result T Err)
    (fm : T → U × Err) (c : ErrVal) :
    (r.state = .Failure → ThenWithContext ctx r fn = some r) ∧
    (r.state = .Success → ctx.err = some c →
      ThenWithContext ctx r fn = some (Fail (some c))) ∧
    (r.state = .Success → ctx.err = none →
      ThenWithContext ctx r fn = some (fn r.value)) ∧
    (r.state = .Failure →
      MapWithContext ctx r fm = (some (Fail r.fault) : Option (Result U Err))) ∧
    (r.state = .Success → ctx.err = some c →
      MapWithContext ctx r fm = some (Fail (some c))) ∧
    (r.state = .Success → ctx.err = none →
      MapWithContext ctx r fm = some (Map r fm)) := by
  refine ⟨fun h => ?_, fun h hc => ?_, fun h hc => ?_, fun h => ?_,
    fun h hc => ?_, fun h hc => ?_⟩
  · simp [ThenWithContext, h]
  · simp [ThenWithContext, h, hc, assertFromAny_err]
  · simp [ThenWithContext, h, hc]
  · simp [MapWithContext, h]
  · simp [MapWithContext, h, hc, assertFromAny_err]
  · simp [MapWithContext, Map, h, hc]

theorem C2_context_gate_witness :
    ThenWithContext ⟨some .canceled⟩
        (Fail (some (.errorString "f")) : Result Nat Err) (fun v => Ok v) =
      some (Fail (some (.errorString "f"))) ∧
    ThenWithContext ⟨some .canceled⟩ (Ok 1 : Result Nat Err) (fun v => Ok v) =
      some (Fail (some .canceled)) ∧
    ThenWithContext ⟨none⟩ (Ok 1 : Result Nat Err) (fun v => Ok (v + 1)) =
      some (Ok 2) ∧
    MapWithContext ⟨some .canceled⟩
        (Fail (some (.errorString "f")) : Result Nat Err)
        (fun v => (v, (none : Err))) =
      some (Fail (some (.errorString "f"))) ∧
    MapWithContext ⟨some .canceled⟩ (Ok 1 : Result Nat Err)
        (fun v => (v, (none : Err))) =
      some (Fail (some .canceled)) ∧
    MapWithContext ⟨none⟩ (Ok 1 : Result Nat Err)
        (fun v => (v + 1, (none : Err))) =
      some (Ok 2 : Result Nat Err) := by
  refine ⟨?_, ?_, ?_, ?_, ?_, ?_⟩
  · exact (C2_context_gate ⟨some .canceled⟩
      (Fail (some (.errorString "f")) : Result Nat Err) (fun v => Ok v)
      (fun v => (v, (none : Err))) .canceled).1 rfl
  · exact (C2_context_gate ⟨some .canceled⟩ (Ok 1 : Result Nat Err)
      (fun v => Ok v) (fun v => (v, (none : Err))) .canceled).2.1 rfl rfl
  · exact (C2_context_gate ⟨none⟩ (Ok 1 : Result Nat Err)
      (fun v => Ok (v + 1)) (fun v => (v, (none : Err)))
      .canceled).2.2.1 rfl rfl
  · exact (C2_context_gate ⟨some .canceled⟩
      (Fail (some (.errorString "f")) : Result Nat Err) (fun v => Ok v)
      (fun v => (v, (none : Err))) .canceled).2.2.2.1 rfl
  · exact (C2_context_gate ⟨some .canceled⟩ (Ok 1 : Result Nat Err)
      (fun v => Ok v) (fun v => (v, (none : Err))) .canceled).2.2.2.2.1 rfl rfl
  · exact (C2_context_gate ⟨none⟩ (Ok 1 : Result Nat Err) (fun v => Ok v)
      (fun v => (v + 1, (none : Err))) .canceled).2.2.2.2.2 rfl rfl

/--
Claim C3: with the error parameter instantiated at the concrete type
`MyCode` (not the `error` interface), every combinator that synthesizes a
cancellation/timeout failure aborts at the `any(err).(E)` conversion
(modelled as `none` / an aborted trace with no delivery) instead of
returning a Failure, while at `E = error` the same branch returns the
synthesized Failure.
-/
theorem C3_cast_abort :
    ThenWithContext ⟨some .canceled⟩ (Ok 0 : Result Nat MyCode)
      (fun v => Ok v) = none ∧
    MapWithContext ⟨some .canceled⟩ (Ok 0 : Result Nat MyCode)
      (fun v => (v, (⟨1⟩ : MyCode))) = none ∧
    AsyncThenWithTimeoutTrace (Ok 0 : Result Nat MyCode) (fun v => Ok v)
      ⟨"1s"⟩ .signal = ([], true) ∧
    AsyncThenWithContextTrace ⟨some .canceled⟩ (Ok 0 : Result Nat MyCode)
      (fun v => Ok v) .compute = ([], true) ∧
    AsyncThenWithContextAndTimeoutTrace ⟨none⟩ (Ok 0 : Result Nat MyCode)
      (fun v => Ok v) ⟨"1s"⟩ (.ctxDone .deadlineExceeded) = ([], true) ∧
    ThenWithContext ⟨some .canceled⟩ (Ok 0 : Result Nat Err)
      (fun v => Ok v) = some (Fail (some .canceled)) := by
  refine ⟨rfl, rfl, rfl, rfl, ?_, rfl⟩
  decide

/--
Claim C6: at `E = error`, wrapping a Failure whose fault is the non-nil
error `v` yields a Failure whose fault's message text is
`msg ++ ": " ++ v.text` and whose original fault is still reachable via
`errors.Unwrap`; wrapping a Success passes the held value through.
-/
theorem C6_wrap [GoZero T] (r : Result T Err) (msg : String) (v : ErrVal) :
    (r.state = .Failure → r.fault = some v →
      (r.Wrap msg).state = .Failure ∧
      (r.Wrap msg).fault = some (.wrapf msg v) ∧
      ErrVal.text (.wrapf msg v) = msg ++ ": " ++ v.text ∧
      errorsUnwrap (.wrapf msg v) = some v ∧
      (r.Wrap msg).Unwrap = some (.wrapf msg v)) ∧
    (r.state = .Success → r.Wrap msg = Ok r.value) := by
  constructor
  · intro h hv
    refine ⟨?_, ?_, rfl, rfl, ?_⟩ <;>
      simp [Result.Wrap, Result.Unwrap, h, hv, toIface_err, goErrorfWrap, Fail]
  · intro h
    simp [Result.Wrap, h]

theorem C6_wrap_witness :
    ((Fail (some (.errorString "boom")) : Result Nat Err).Wrap "ctx").Unwrap =
      some (.wrapf "ctx" (.errorString "boom")) ∧
    ErrVal.text (.wrapf "ctx" (.errorString "boom")) = "ctx: boom" ∧
    (Ok 3 : Result Nat Err).Wrap "ctx" = Ok 3 := by
  have h := C6_wrap (Fail (some (.errorString "boom")) : Result Nat Err)
    "ctx" (.errorString "boom")
  refine ⟨(h.1 rfl rfl).2.2.2.2, ?_, ?_⟩
  · have ht := (h.1 rfl rfl).2.2.1
    rw [ht]
    decide
  · exact (C6_wrap (Ok 3 : Result Nat Err) "ctx" (.errorString "boom")).2 rfl

/--
Claim C7: `UnwrapOrPanic` returns the held value on Success and panics
(modelled as `Except.error`) exactly on Failure, with message
`"called UnwrapOrPanic on a Failure: " ++` the `%v` rendering of the
fault.
-/
theorem C7_unwrapOrPanic [GoErrorType E] (r : Result T E) :
    (r.state = .Success → r.UnwrapOrPanic = .ok r.value) ∧
    (r.state = .Failure →
      r.UnwrapOrPanic =
        .error ("called UnwrapOrPanic on a Failure: " ++
          GoErrorType.fmtv r.fault)) := by
  constructor <;> intro h <;> simp [Result.UnwrapOrPanic, h]

theorem C7_unwrapOrPanic_witness :
    (Ok 42 : Result Nat Err).UnwrapOrPanic = .ok 42 ∧
    (Fail (some (.errorString "test error")) : Result Nat Err).UnwrapOrPanic =
      .error "called UnwrapOrPanic on a Failure: test error" := by
  constructor
  · exact (C7_unwrapOrPanic (Ok 42 : Result Nat Err)).1 rfl
  · have h := (C7_unwrapOrPanic
      (Fail (some (.errorString "test error")) : Result Nat Err)).2 rfl
    rw [h]
    exact congrArg Except.error (by decide)

theorem C10_then_right_identity_witness :
    ((Ok 7 : Result Nat Err).Then Ok = Ok 7) ∧
    ((Fail (some .canceled) : Result Nat Err).Then Ok = Fail (some .canceled)) := by
  constructor
  · exact C10_then_right_identity (Ok 7 : Result Nat Err) (by decide)
  · exact C10_then_right_identity (Fail (some .canceled) : Result Nat Err)
      (by decide)

end Tiny
